import Mathlib

/-!
Verification development for the openclaw-overlay-plugin core:
the token-script codec, the per-payload-type validation rules, the
client-side admission simulators, the BEEF bundle validator, the
overlay submission step, and the confirmation-polling loop used by
the wallet import command.

Each definition is a shallow embedding of the corresponding
TypeScript function.  Machine integers are modelled as `Nat` (all
byte values are naturals), JavaScript numbers appearing in payloads
as `ℚ`, fallible operations as `Option`/`Except`.  Functions of the
external `@bsv/sdk` library that the code under verification calls
are modelled from the specification's description of their interface
and are marked as such in their doc comments.
-/

namespace Openclaw

/-! ### Script representation

A script is the chunk list produced by the SDK's `Script` class:
each chunk is an opcode together with the pushed data bytes, when
the opcode is a data push. -/

/-- One chunk of a parsed script: an opcode and, for push opcodes, the pushed bytes. -/
structure ScriptChunk where
  op : Nat
  data : Option (List Nat)
deriving DecidableEq, Repr

/-- A locking script, as a list of parsed chunks. -/
abbrev Script := List ScriptChunk

/-- Opcode `OP_FALSE` (`0x00`). -/
def opFalse : Nat := 0x00

/-- Opcode `OP_RETURN` (`0x6a`). -/
def opReturn : Nat := 0x6a

/-- Opcode `OP_CHECKSIG` (`0xac`). -/
def opCheckSig : Nat := 0xac

/-- Opcode `OP_DROP` (`0x75`). -/
def opDrop : Nat := 0x75

/-- Opcode `OP_2DROP` (`0x6d`). -/
def op2Drop : Nat := 0x6d

/-- The fixed protocol tag carried by every payload
(`PROTOCOL_ID = 'clawdbot-overlay-v1'` in the source). -/
def PROTOCOL_ID : String := "clawdbot-overlay-v1"

/-! ### Legacy data-carrier decoding (`extractOpReturnPushes`)

Embeds the collapsed-blob sub-parser and the chunk-level dispatch of
`extractOpReturnPushes` in the server-validation module. -/

/-- The manual sub-parser for the collapsed two-chunk format: walks the
data blob of the single `OP_RETURN` push, reading nested push opcodes
(direct length `1..75`, `OP_PUSHDATA1` `0x4c`, `OP_PUSHDATA2` `0x4d`,
`OP_PUSHDATA4` `0x4e`); any other opcode stops the walk.  Reads past
the end of the blob yield zero length bytes and truncated slices,
exactly as the JavaScript `?? 0` / `Math.min` guards do.  Byte values
are assumed `< 256`, as produced by the SDK's script parser. -/
def parseCollapsedPushes : List Nat → List (List Nat)
  | [] => []
  | op :: rest =>
    if 0 < op ∧ op ≤ 75 then
      rest.take op :: parseCollapsedPushes (rest.drop op)
    else if op = 0x4c then
      let len := rest.headD 0
      let r := rest.drop 1
      r.take len :: parseCollapsedPushes (r.drop len)
    else if op = 0x4d then
      let len := rest.headD 0 + 256 * (rest.drop 1).headD 0
      let r := rest.drop 2
      r.take len :: parseCollapsedPushes (r.drop len)
    else if op = 0x4e then
      let len := rest.headD 0 + 256 * (rest.drop 1).headD 0 +
        65536 * (rest.drop 2).headD 0 + 16777216 * (rest.drop 3).headD 0
      let r := rest.drop 4
      r.take len :: parseCollapsedPushes (r.drop len)
    else []
termination_by l => l.length
decreasing_by
  all_goals simp only [List.length_drop, List.length_cons]
  all_goals omega

/-- The deprecated legacy decoder `extractOpReturnPushes`: accepts the
four-or-more-chunk shape `OP_FALSE OP_RETURN <data> <data> ...`
(collecting the data of every remaining chunk) and the collapsed
two-chunk shape `OP_FALSE OP_RETURN <blob>` (sub-parsing the blob and
requiring at least two pushes); returns `none` for every other shape. -/
def extractOpReturnPushes (script : Script) : Option (List (List Nat)) :=
  match script with
  | c0 :: c1 :: c2 :: c3 :: rest =>
    if c0.op = opFalse ∧ c1.op = opReturn then
      some ((c2 :: c3 :: rest).filterMap (fun c => c.data))
    else none
  | [c0, c1] =>
    if c0.op = opFalse ∧ c1.op = opReturn then
      match c1.data with
      | some blob =>
        let pushes := parseCollapsedPushes blob
        if 2 ≤ pushes.length then some pushes else none
      | none => none
    else none
  | _ => none

/-- The two legacy data-carrier shapes `extractOpReturnPushes`
recognizes: the four-or-more-chunk shape led by `OP_FALSE OP_RETURN`,
and the collapsed two-chunk shape whose blob sub-parses into at least
two pushes. -/
def isLegacyCarrierShape (script : Script) : Bool :=
  match script with
  | c0 :: c1 :: _ :: _ :: _ => c0.op = opFalse && c1.op = opReturn
  | [c0, c1] =>
    c0.op = opFalse && c1.op = opReturn && c1.data.isSome &&
      decide (2 ≤ (parseCollapsedPushes (c1.data.getD [])).length)
  | _ => false

/-! ### PushDrop decoding (`extractPushDropFields`) -/

/-- Drop-operator suffix counter: total number of stack items removed
by a chunk list consisting only of `OP_DROP` / `OP_2DROP` operators;
`none` if any other operator appears. -/
def dropOpsCount : List ScriptChunk → Option Nat
  | [] => some 0
  | c :: rest =>
    if c.op = opDrop then (dropOpsCount rest).map (· + 1)
    else if c.op = op2Drop then (dropOpsCount rest).map (· + 2)
    else none

/-- Splits a chunk list into its maximal leading run of data pushes
(the token fields) and the remaining chunks. -/
def splitFieldPushes : List ScriptChunk → List (List Nat) × List ScriptChunk
  | [] => ([], [])
  | c :: rest =>
    match c.data with
    | some d =>
      let p := splitFieldPushes rest
      (d :: p.1, p.2)
    | none => ([], c :: rest)

/-- Modelled from the spec: the external SDK's `PushDrop.decode`.  The
modern token-field encoding is a push of the spending public key, a
signature-check operator, a minimally-encoded push of each field in
order, and drop operators covering the fields; `decode` returns the
pushed fields of a script of that shape and fails on anything else. -/
def pushDropDecode (script : Script) : Option (List (List Nat)) :=
  match script with
  | keyChunk :: sigChunk :: rest =>
    match keyChunk.data with
    | some keyBytes =>
      if sigChunk.op = opCheckSig ∧ keyBytes ≠ [] then
        let p := splitFieldPushes rest
        match dropOpsCount p.2 with
        | some n => if n = p.1.length then some p.1 else none
        | none => none
      else none
    | none => none
  | _ => none

/-- The decoder used by every payload validator and admission
simulator (`extractPushDropFields`): attempts the SDK's
`PushDrop.decode` and converts any decode exception to `null`. -/
def extractPushDropFields (script : Script) : Option (List (List Nat)) :=
  pushDropDecode script

/-! ### JSON values

JavaScript values obtained from `JSON.parse`, as a closed inductive:
`null`, booleans, numbers, strings, arrays and objects. -/

/-- A parsed JSON value. -/
inductive JsonValue where
  | jnull
  | jbool (b : Bool)
  | jnum (q : ℚ)
  | jstr (s : String)
  | jarr (elems : List JsonValue)
  | jobj (fields : List (String × JsonValue))

/-- JavaScript property access `v.k`: defined only on objects, every
other value (and a missing key) yields `undefined`, modelled `none`. -/
def JsonValue.getField : JsonValue → String → Option JsonValue
  | .jobj fs, k => fs.lookup k
  | _, _ => none

/-- JavaScript truthiness of a JSON value (`null`, `false`, `0` and
the empty string are falsy; arrays and objects are always truthy). -/
def jsTruthy : JsonValue → Bool
  | .jnull => false
  | .jbool b => b
  | .jnum q => q ≠ 0
  | .jstr s => s ≠ ""
  | .jarr _ => true
  | .jobj _ => true

/-- A hexadecimal digit character, upper or lower case
(the character class of the identity-key pattern). -/
def isHexDigitChar (c : Char) : Bool :=
  c.isDigit || (c ≥ 'a' && c ≤ 'f') || (c ≥ 'A' && c ≤ 'F')

/-- The identity-key check `/^[0-9a-fA-F]{66}$/.test s`: exactly 66
characters, each a hexadecimal digit. -/
def isCompressedPubKeyHex (s : String) : Bool :=
  s.length = 66 && s.toList.all isHexDigitChar

/-! ### Payload validation (`parseIdentityOutput`, `parseRevocationOutput`, `parseServiceOutput`)

The validators first run `extractPushDropFields`, require at least
one field, decode the first field as UTF-8 JSON, and then apply the
server validation rules to the decoded value.  The UTF-8 decoding
plus `JSON.parse` step is the JavaScript platform's JSON parser; it
is passed in as a parameter `jp` (a parse exception is `none`), so
that every theorem below holds for any behaviour of that parser. -/

/-- Decoding of the first field into a JSON value: the platform's
`TextDecoder().decode` followed by `JSON.parse`, with an exception
mapped to `none` by the enclosing `try`/`catch`. -/
abbrev JsonParse := List Nat → Option JsonValue

/-- The server validation rules for an `identity` payload, applied to
the decoded JSON value: protocol tag, `type` discriminator, 66-digit
hexadecimal identity key, non-empty `name` string, array-valued
`capabilities`, string-valued `timestamp`.  Property access on a
non-object value yields `undefined` and fails the corresponding
check, exactly as in the dynamically-typed source. -/
def validIdentityJson (j : JsonValue) : Bool :=
  (match j.getField "protocol" with | some (.jstr s) => s = PROTOCOL_ID | _ => false) &&
  (match j.getField "type" with | some (.jstr s) => s = "identity" | _ => false) &&
  (match j.getField "identityKey" with | some (.jstr s) => isCompressedPubKeyHex s | _ => false) &&
  (match j.getField "name" with | some (.jstr s) => s ≠ "" | _ => false) &&
  (match j.getField "capabilities" with | some (.jarr _) => true | _ => false) &&
  (match j.getField "timestamp" with | some (.jstr _) => true | _ => false)

/-- The server validation rules for an `identity-revocation` payload:
protocol tag, `type` discriminator, identity key, string timestamp
(the optional `reason` field is not checked). -/
def validRevocationJson (j : JsonValue) : Bool :=
  (match j.getField "protocol" with | some (.jstr s) => s = PROTOCOL_ID | _ => false) &&
  (match j.getField "type" with | some (.jstr s) => s = "identity-revocation" | _ => false) &&
  (match j.getField "identityKey" with | some (.jstr s) => isCompressedPubKeyHex s | _ => false) &&
  (match j.getField "timestamp" with | some (.jstr _) => true | _ => false)

/-- The `!payload.pricing || typeof payload.pricing.amountSats !== 'number'`
check of the service validator: `pricing` must be present and truthy
and its `amountSats` property must be a number. -/
def validPricing (j : JsonValue) : Bool :=
  match j.getField "pricing" with
  | none => false
  | some p =>
    jsTruthy p &&
    (match p.getField "amountSats" with | some (.jnum _) => true | _ => false)

/-- The server validation rules for a `service` payload: protocol
tag, `type` discriminator, identity key, non-empty `serviceId` and
`name` strings, pricing with numeric `amountSats`, string timestamp. -/
def validServiceJson (j : JsonValue) : Bool :=
  (match j.getField "protocol" with | some (.jstr s) => s = PROTOCOL_ID | _ => false) &&
  (match j.getField "type" with | some (.jstr s) => s = "service" | _ => false) &&
  (match j.getField "identityKey" with | some (.jstr s) => isCompressedPubKeyHex s | _ => false) &&
  (match j.getField "serviceId" with | some (.jstr s) => s ≠ "" | _ => false) &&
  (match j.getField "name" with | some (.jstr s) => s ≠ "" | _ => false) &&
  validPricing j &&
  (match j.getField "timestamp" with | some (.jstr _) => true | _ => false)

/-- Shared shape of the three payload parsers: extract the PushDrop
fields, require at least one, JSON-decode the first field, apply the
variant's validation rules, and return the decoded payload. -/
def parsePayloadOutput (valid : JsonValue → Bool) (jp : JsonParse) (script : Script) :
    Option JsonValue :=
  match extractPushDropFields script with
  | none => none
  | some [] => none
  | some (f0 :: _) =>
    match jp f0 with
    | none => none
    | some j => if valid j then some j else none

/-- The source's `parseIdentityOutput`. -/
def parseIdentityOutput (jp : JsonParse) (script : Script) : Option JsonValue :=
  parsePayloadOutput validIdentityJson jp script

/-- The source's `parseRevocationOutput`. -/
def parseRevocationOutput (jp : JsonParse) (script : Script) : Option JsonValue :=
  parsePayloadOutput validRevocationJson jp script

/-- The source's `parseServiceOutput`. -/
def parseServiceOutput (jp : JsonParse) (script : Script) : Option JsonValue :=
  parsePayloadOutput validServiceJson jp script

/-! ### Admission simulation (`identifyIdentityOutputs`, `identifyServiceOutputs`)

The simulators parse the submitted binary bundle with the SDK's
`Beef.fromBinary` and examine `parsedBeef.txs[0]?._tx`.  The parsed
bundle is modelled directly: a list of transaction entries, ordered
newest first, so that entry 0 is the subject transaction — the
ordering contract the repository pins down in its own test suite
(`overlay-submit.test.ts` asserts that `txs[0]` of a decoded bundle
is the newly built, newest transaction).  An entry's transaction may
be absent (`_tx` is optional on txid-only entries). -/

/-- One transaction output: an optional locking script and a value in
satoshis. -/
structure TxOutput where
  lockingScript : Option Script
  satoshis : Nat

/-- A transaction as the simulators see it: its ordered outputs. -/
structure SdkTransaction where
  outputs : List TxOutput

/-- One entry of a parsed bundle (`BeefTx`); `tx` models the optional
`_tx` field. -/
structure BeefTxEntry where
  tx : Option SdkTransaction

/-- A parsed bundle (`Beef.fromBinary` result): transaction entries,
newest first. -/
structure ParsedBeef where
  txs : List BeefTxEntry

/-- The admission result returned by a topic manager simulation. -/
structure AdmittanceResult where
  outputsToAdmit : List Nat
  coinsToRetain : List Nat
deriving DecidableEq, Repr

/-- The subject transaction lookup `parsedBeef.txs[0]?._tx`. -/
def subjectTransaction (pb : ParsedBeef) : Option SdkTransaction :=
  pb.txs.head?.bind (fun e => e.tx)

/-- Default output used only to state index lookups in theorems. -/
def emptyOutput : TxOutput := ⟨none, 0⟩

/-- Whether the identity topic admits an output: its locking script
is present and parses as an `identity` payload or, failing that, as
an `identity-revocation` payload. -/
def identityAdmissible (jp : JsonParse) (o : TxOutput) : Bool :=
  match o.lockingScript with
  | some s => (parseIdentityOutput jp s).isSome || (parseRevocationOutput jp s).isSome
  | none => false

/-- Whether the services topic admits an output: its locking script
is present and parses as a `service` payload. -/
def serviceAdmissible (jp : JsonParse) (o : TxOutput) : Bool :=
  match o.lockingScript with
  | some s => (parseServiceOutput jp s).isSome
  | none => false

/-- The output-scanning loop shared by both simulators: walks the
outputs in index order, starting at index `i`, and collects the
indices of the outputs the predicate admits. -/
def collectAdmitted (p : TxOutput → Bool) : List TxOutput → Nat → List Nat
  | [], _ => []
  | o :: rest, i =>
    if p o then i :: collectAdmitted p rest (i + 1)
    else collectAdmitted p rest (i + 1)

/-- The source's `identifyIdentityOutputs`, from the parsed bundle
on: locate the subject transaction (empty result when absent), scan
its outputs for identity or revocation payloads, retain no coins. -/
def identifyIdentityOutputs (jp : JsonParse) (pb : ParsedBeef) : AdmittanceResult :=
  match subjectTransaction pb with
  | none => ⟨[], []⟩
  | some t => ⟨collectAdmitted (identityAdmissible jp) t.outputs 0, []⟩

/-- The source's `identifyServiceOutputs`, from the parsed bundle on. -/
def identifyServiceOutputs (jp : JsonParse) (pb : ParsedBeef) : AdmittanceResult :=
  match subjectTransaction pb with
  | none => ⟨[], []⟩
  | some t => ⟨collectAdmitted (serviceAdmissible jp) t.outputs 0, []⟩

/-! ### BEEF validation (`validateBeef`)

`validateBeef` checks the length and the 4-byte magic marker itself
and then delegates the structural parse to the SDK's
`Beef.fromBinary` inside a `try`/`catch`. -/

/-- One hexadecimal digit character for a value below 16, lower case
(as produced by `Number.prototype.toString(16)`). -/
def hexDigitChar (n : Nat) : Char :=
  if n < 10 then Char.ofNat (48 + n) else Char.ofNat (87 + n)

/-- Auxiliary digit accumulator for `natToHexChars`; the first
argument is recursion fuel (any fuel at least the digit count of the
second argument yields all digits; `natToHexChars` passes `n`
itself, which always suffices). -/
def natToHexCharsAux : Nat → Nat → List Char → List Char
  | 0, _, acc => acc
  | _ + 1, 0, acc => acc
  | fuel + 1, n + 1, acc =>
    natToHexCharsAux fuel ((n + 1) / 16) (hexDigitChar ((n + 1) % 16) :: acc)

/-- JavaScript's `n.toString(16)` for a non-negative integer, as a
character list. -/
def natToHexChars (n : Nat) : List Char :=
  if n = 0 then ['0'] else natToHexCharsAux n n []

/-- JavaScript's `padStart(2, '0')`. -/
def padTo2 (l : List Char) : List Char :=
  List.replicate (2 - l.length) '0' ++ l

/-- One byte rendered as two hexadecimal characters
(`b.toString(16).padStart(2, '0')`). -/
def byteHexChars (b : Nat) : List Char :=
  padTo2 (natToHexChars b)

/-- The `magicHex` string of `validateBeef`: the first four bytes,
each rendered in padded hexadecimal, joined. -/
def magicHexChars (beef : List Nat) : List Char :=
  ((beef.take 4).map byteHexChars).flatten

/-- The version-1 magic bytes `0x01 0x00 0xBE 0xEF`. -/
def beefMagicV1 : List Nat := [0x01, 0x00, 0xbe, 0xef]

/-- The version-2 magic bytes `0x02 0x00 0xBE 0xEF`. -/
def beefMagicV2 : List Nat := [0x02, 0x00, 0xbe, 0xef]

/-- Bitcoin-style variable-length integer: value and remaining bytes,
or `none` when the stream ends before the integer is complete. -/
def readVarInt : List Nat → Option (Nat × List Nat)
  | [] => none
  | b :: rest =>
    if b < 0xfd then some (b, rest)
    else if b = 0xfd then
      match rest with
      | a0 :: a1 :: r => some (a0 + 256 * a1, r)
      | _ => none
    else if b = 0xfe then
      match rest with
      | a0 :: a1 :: a2 :: a3 :: r =>
        some (a0 + 256 * a1 + 65536 * a2 + 16777216 * a3, r)
      | _ => none
    else
      match rest with
      | a0 :: a1 :: a2 :: a3 :: a4 :: a5 :: a6 :: a7 :: r =>
        some (a0 + 256 * a1 + 65536 * a2 + 16777216 * a3 + 4294967296 * a4 +
          1099511627776 * a5 + 281474976710656 * a6 + 72057594037927936 * a7, r)
      | _ => none

/-- Reads one length-delimited record from the stream. -/
def readRecord (l : List Nat) : Option (List Nat × List Nat) :=
  (readVarInt l).bind (fun p =>
    if p.1 ≤ p.2.length then some (p.2.take p.1, p.2.drop p.1) else none)

/-- Reads `n` length-delimited records from the stream. -/
def readRecords : Nat → List Nat → Option (List (List Nat) × List Nat)
  | 0, l => some ([], l)
  | n + 1, l =>
    (readRecord l).bind (fun p =>
      (readRecords n p.2).map (fun q => (p.1 :: q.1, q.2)))

/-- The structural content of a binary bundle, as far as
`validateBeef` consumes it: the merkle-proof records (`bumps`) and
the transaction records (`txs`). -/
structure BeefBinParsed where
  bumps : List (List Nat)
  txRecords : List (List Nat)
deriving DecidableEq, Repr

/-- Modelled from the spec: the external SDK's `Beef.fromBinary`.  The
binary layout is the 4-byte magic marker followed by a
version-specific transaction-and-proof list; a buffer whose stream
ends before a required field is rejected with a thrown error, never
accepted.  The per-record binary layouts are internal to the SDK and
are modelled here as varint-count-prefixed, length-delimited records;
the theorems below rely only on the header handling (the magic bytes
and the failure of every read past the end of the stream). -/
def beefFromBinary (bytes : List Nat) : Except String BeefBinParsed :=
  if bytes.length < 4 then .error "BEEF data truncated: missing version header"
  else if bytes.take 4 ≠ beefMagicV1 ∧ bytes.take 4 ≠ beefMagicV2 then
    .error "unsupported BEEF version"
  else
    match readVarInt (bytes.drop 4) with
    | none => .error "BEEF data truncated: missing BUMP count"
    | some (nBumps, r1) =>
      match readRecords nBumps r1 with
      | none => .error "BEEF data truncated: incomplete BUMP records"
      | some (bumps, r2) =>
        match readVarInt r2 with
        | none => .error "BEEF data truncated: missing transaction count"
        | some (nTxs, r3) =>
          match readRecords nTxs r3 with
          | none => .error "BEEF data truncated: incomplete transaction records"
          | some (txrs, _) => .ok ⟨bumps, txrs⟩

/-- The structured result object of `validateBeef`. -/
structure ValidateBeefResult where
  valid : Bool
  error : Option String
  version : Option Nat
  txCount : Option Nat
  hasProofs : Option Bool
deriving DecidableEq, Repr

/-- The source's `validateBeef`: length guard, magic-byte guard,
structural parse inside `try`/`catch` (a thrown parse error becomes a
structured `valid: false` result), and a non-empty transaction list. -/
def validateBeef (beef : List Nat) : ValidateBeefResult :=
  if beef.length < 4 then ⟨false, some "BEEF too short", none, none, none⟩
  else
    let magicHex := String.mk (magicHexChars beef)
    if magicHex ≠ "0100beef" ∧ magicHex ≠ "0200beef" then
      ⟨false, some ("Invalid magic bytes: " ++ magicHex), none, none, none⟩
    else
      let version : Nat := if magicHex = "0100beef" then 1 else 2
      match beefFromBinary beef with
      | .error e => ⟨false, some e, none, none, none⟩
      | .ok parsed =>
        if parsed.txRecords.length = 0 then
          ⟨false, some "BEEF contains no transactions", none, none, none⟩
        else
          ⟨true, none, some version, some parsed.txRecords.length,
            some (decide (0 < parsed.bumps.length))⟩

/-! ### Overlay submission (`buildRealOverlayTransaction`)

The tail of `buildRealOverlayTransaction`, from the overlay server's
HTTP response on: a non-success status throws; a success status
returns the success record.  The response is modelled together with
its parsed STEAK body (the per-topic admission results) so that the
theorems can speak about what the function does — and does not — read
from it. -/

/-- The overlay server's `/submit` response as the client sees it:
HTTP success flag, status code, body text, and the STEAK map from
topic name to admission result carried by a success body. -/
structure SubmitHttpResponse where
  ok : Bool
  status : Nat
  bodyText : String
  steak : List (String × AdmittanceResult)

/-- Outcome of the submission step: the returned success record or a
thrown error. -/
inductive SubmitStepResult where
  | success (txid : String) (funded : String) (explorer : String)
  | thrown (message : String)
deriving DecidableEq, Repr

/-- The response handling of `buildRealOverlayTransaction` (the code
after the `fetch` of `/submit`): throw on a non-success status,
otherwise return the success record built from the transaction id
and the network name. -/
def buildRealOverlayTransactionSubmitStep (network : String) (txid : String)
    (resp : SubmitHttpResponse) : SubmitStepResult :=
  if resp.ok = false then
    .thrown ("Overlay submission failed: " ++ toString resp.status ++ " — " ++ resp.bodyText)
  else
    let wocNet := if network = "mainnet" then "" else "test."
    .success txid "stored-beef" ("https://" ++ wocNet ++ "whatsonchain.com/tx/" ++ txid)

/-! ### Import confirmation polling (`cmdImport`)

The polling loop of `cmdImport`: while less than 60 seconds of
wall-clock time have elapsed, query the indexer for the transaction;
a success response exits the loop with the transaction found; a 404
increments the attempt counter, sleeps for
`min(1000 * 1.5 ^ attempt, 10000)` milliseconds and retries; any
other response fails at once.  Leaving the loop without a found
transaction fails with the descriptive timeout message.  Each
scripted response models one completed indexer query (the query
itself is modelled as instantaneous; the sleeps advance the modelled
clock, in milliseconds as exact rationals). -/

/-- One completed indexer response: HTTP success, 404, or another
failure status. -/
inductive WocResponse where
  | ok
  | notFound
  | httpError (status : Nat)
deriving DecidableEq, Repr

/-- The backoff delay slept after the `attempt`-th 404, in
milliseconds: `Math.min(1000 * Math.pow(1.5, attempt), 10000)`. -/
def backoffDelay (attempt : Nat) : ℚ :=
  min (1000 * (3 / 2 : ℚ) ^ attempt) 10000

/-- The poll budget `maxWaitMs = 60000`. -/
def maxWaitMs : ℚ := 60000

/-- Outcome of the polling loop: transaction found (with the elapsed
time and attempt counter at that point), an immediate failure on a
non-404 error status, the budget exhausted, or — a model artifact —
the scripted response list ran out while the loop would still poll. -/
inductive ImportPollResult where
  | found (elapsedMs : ℚ) (attempts : Nat)
  | fetchFailed (status : Nat)
  | timedOut (elapsedMs : ℚ)
  | scriptEnded
deriving DecidableEq, Repr

/-- The polling loop of `cmdImport`, over a scripted response list. -/
def importPollLoop (resps : List WocResponse) (elapsed : ℚ) (attempt : Nat) :
    ImportPollResult :=
  if maxWaitMs ≤ elapsed then .timedOut elapsed
  else
    match resps with
    | [] => .scriptEnded
    | .ok :: _ => .found elapsed attempt
    | .httpError s :: _ => .fetchFailed s
    | .notFound :: rest =>
      importPollLoop rest (elapsed + backoffDelay (attempt + 1)) (attempt + 1)
termination_by resps.length
decreasing_by simp

/-- The immediate-failure message for a non-404 error status. -/
def fetchFailedMessage (status : Nat) : String :=
  "Failed to fetch tx info: " ++ toString status

/-- The descriptive timeout message produced when the poll budget is
exhausted without the transaction appearing on the indexer. -/
def importTimeoutMessage (txid : String) (seconds : Nat) : String :=
  "Transaction " ++ txid ++ " not found on WhatsOnChain after " ++ toString seconds ++
    "s. The transaction may not have been broadcast yet, or the txid may be incorrect."

/-- Total time slept by the first `k` backoff delays (attempts `1`
through `k`), in milliseconds. -/
def totalBackoff : Nat → ℚ
  | 0 => 0
  | k + 1 => totalBackoff k + backoffDelay (k + 1)

/-! ### Concrete example values

Concrete scripts, payloads and bundles used to evaluate the
definitions at specific inputs. -/

/-- A JSON-decoding step that always yields the given value
(one admissible behaviour of the platform parser, used to evaluate
the pipeline at concrete inputs). -/
def constParse (j : JsonValue) : JsonParse := fun _ => some j

/-- A 33-byte compressed-public-key push payload. -/
def keyBytesEx : List Nat := List.replicate 33 2

/-- An opaque first-field byte string. -/
def payloadFieldBytes : List Nat := [123, 125]

/-- A token script in the modern PushDrop shape: key push, `OP_CHECKSIG`,
one field push, one `OP_DROP`. -/
def modernScriptEx : Script :=
  [⟨33, some keyBytesEx⟩, ⟨opCheckSig, none⟩, ⟨1, some payloadFieldBytes⟩, ⟨opDrop, none⟩]

/-- The UTF-8 bytes of the protocol tag string. -/
def protocolTagBytes : List Nat :=
  [99, 108, 97, 119, 100, 98, 111, 116, 45, 111, 118, 101, 114, 108, 97, 121, 45, 118, 49]

/-- A data-carrier script in the legacy four-chunk shape:
`OP_FALSE OP_RETURN <protocol-tag-push> <json-push>`. -/
def legacyScriptEx : Script :=
  [⟨opFalse, none⟩, ⟨opReturn, none⟩, ⟨19, some protocolTagBytes⟩, ⟨2, some payloadFieldBytes⟩]

/-- A pay-to-public-key-hash locking script (an ordinary,
non-token output). -/
def p2pkhScriptEx : Script :=
  [⟨0x76, none⟩, ⟨0xa9, none⟩, ⟨20, some (List.replicate 20 0)⟩, ⟨0x88, none⟩, ⟨opCheckSig, none⟩]

/-- A 66-character hexadecimal identity key. -/
def identityKeyEx : String :=
  "021111111111111111111111111111111111111111111111111111111111111111"

/-- An identity payload whose `description` field is the empty
string and whose every other field satisfies the validation rules. -/
def identityJsonEmptyDesc : JsonValue :=
  .jobj [("protocol", .jstr PROTOCOL_ID), ("type", .jstr "identity"),
    ("identityKey", .jstr identityKeyEx), ("name", .jstr "test-agent"),
    ("description", .jstr ""), ("channels", .jobj []),
    ("capabilities", .jarr []), ("timestamp", .jstr "2026-01-01T00:00:00.000Z")]

/-- A service payload whose `description` field is the empty string
and whose every other field satisfies the validation rules. -/
def serviceJsonEmptyDesc : JsonValue :=
  .jobj [("protocol", .jstr PROTOCOL_ID), ("type", .jstr "service"),
    ("identityKey", .jstr identityKeyEx), ("serviceId", .jstr "echo"),
    ("name", .jstr "Echo"), ("description", .jstr ""),
    ("pricing", .jobj [("model", .jstr "per-task"), ("amountSats", .jnum 10)]),
    ("timestamp", .jstr "2026-01-01T00:00:00.000Z")]

/-- A fully valid identity payload. -/
def identityJsonValid : JsonValue :=
  .jobj [("protocol", .jstr PROTOCOL_ID), ("type", .jstr "identity"),
    ("identityKey", .jstr identityKeyEx), ("name", .jstr "test-agent"),
    ("description", .jstr "A test agent"), ("channels", .jobj []),
    ("capabilities", .jarr [.jstr "test"]), ("timestamp", .jstr "2026-01-01T00:00:00.000Z")]

/-- A fully valid service payload. -/
def serviceJsonValid : JsonValue :=
  .jobj [("protocol", .jstr PROTOCOL_ID), ("type", .jstr "service"),
    ("identityKey", .jstr identityKeyEx), ("serviceId", .jstr "echo"),
    ("name", .jstr "Echo"), ("description", .jstr "Echoes input"),
    ("pricing", .jobj [("model", .jstr "per-task"), ("amountSats", .jnum 10)]),
    ("timestamp", .jstr "2026-01-01T00:00:00.000Z")]

/-- An identity payload with a wrong protocol tag. -/
def identityJsonWrongProtocol : JsonValue :=
  .jobj [("protocol", .jstr "wrong-protocol"), ("type", .jstr "identity"),
    ("identityKey", .jstr identityKeyEx), ("name", .jstr "test-agent"),
    ("description", .jstr "A test agent"), ("channels", .jobj []),
    ("capabilities", .jarr []), ("timestamp", .jstr "2026-01-01T00:00:00.000Z")]

/-- An identity payload with a wrong `type` discriminator. -/
def identityJsonWrongType : JsonValue :=
  .jobj [("protocol", .jstr PROTOCOL_ID), ("type", .jstr "not-identity"),
    ("identityKey", .jstr identityKeyEx), ("name", .jstr "test-agent"),
    ("description", .jstr "A test agent"), ("channels", .jobj []),
    ("capabilities", .jarr []), ("timestamp", .jstr "2026-01-01T00:00:00.000Z")]

/-- An identity payload whose identity key is not hexadecimal. -/
def identityJsonBadKey : JsonValue :=
  .jobj [("protocol", .jstr PROTOCOL_ID), ("type", .jstr "identity"),
    ("identityKey", .jstr "not-a-valid-key"), ("name", .jstr "test-agent"),
    ("description", .jstr "A test agent"), ("channels", .jobj []),
    ("capabilities", .jarr []), ("timestamp", .jstr "2026-01-01T00:00:00.000Z")]

/-- An identity payload whose identity key is truncated to 6
hexadecimal characters. -/
def identityJsonShortKey : JsonValue :=
  .jobj [("protocol", .jstr PROTOCOL_ID), ("type", .jstr "identity"),
    ("identityKey", .jstr "021111"), ("name", .jstr "test-agent"),
    ("description", .jstr "A test agent"), ("channels", .jobj []),
    ("capabilities", .jarr []), ("timestamp", .jstr "2026-01-01T00:00:00.000Z")]

/-- An identity payload with an empty `name`. -/
def identityJsonEmptyName : JsonValue :=
  .jobj [("protocol", .jstr PROTOCOL_ID), ("type", .jstr "identity"),
    ("identityKey", .jstr identityKeyEx), ("name", .jstr ""),
    ("description", .jstr "A test agent"), ("channels", .jobj []),
    ("capabilities", .jarr []), ("timestamp", .jstr "2026-01-01T00:00:00.000Z")]

/-- An identity payload whose `capabilities` is a string, not an
array. -/
def identityJsonCapsString : JsonValue :=
  .jobj [("protocol", .jstr PROTOCOL_ID), ("type", .jstr "identity"),
    ("identityKey", .jstr identityKeyEx), ("name", .jstr "test-agent"),
    ("description", .jstr "A test agent"), ("channels", .jobj []),
    ("capabilities", .jstr "test"), ("timestamp", .jstr "2026-01-01T00:00:00.000Z")]

/-- A service payload with no `pricing` field at all. -/
def serviceJsonNoPricing : JsonValue :=
  .jobj [("protocol", .jstr PROTOCOL_ID), ("type", .jstr "service"),
    ("identityKey", .jstr identityKeyEx), ("serviceId", .jstr "echo"),
    ("name", .jstr "Echo"), ("description", .jstr "Echoes input"),
    ("timestamp", .jstr "2026-01-01T00:00:00.000Z")]

/-- A service payload whose `pricing.amountSats` is a string, not a
number. -/
def serviceJsonAmountString : JsonValue :=
  .jobj [("protocol", .jstr PROTOCOL_ID), ("type", .jstr "service"),
    ("identityKey", .jstr identityKeyEx), ("serviceId", .jstr "echo"),
    ("name", .jstr "Echo"), ("description", .jstr "Echoes input"),
    ("pricing", .jobj [("model", .jstr "per-task"), ("amountSats", .jstr "10")]),
    ("timestamp", .jstr "2026-01-01T00:00:00.000Z")]

/-- A subject transaction with a token output at index 0 and an
ordinary change output at index 1. -/
def subjectTxEx : SdkTransaction :=
  ⟨[⟨some modernScriptEx, 1⟩, ⟨some p2pkhScriptEx, 9900⟩]⟩

/-- An ancestor (funding) transaction with a single ordinary output
and, for ancestor-independence tests, one token-shaped output. -/
def ancestorTxEx : SdkTransaction :=
  ⟨[⟨some p2pkhScriptEx, 10000⟩, ⟨some modernScriptEx, 1⟩]⟩

/-- A parsed two-transaction bundle: the subject first (newest
first), then its funding ancestor. -/
def beefTwoTxEx : ParsedBeef :=
  ⟨[⟨some subjectTxEx⟩, ⟨some ancestorTxEx⟩]⟩

/-! ## Theorems -/

/-- Membership in the output-scanning loop's result: exactly the
(offset) indices of the admitted outputs. -/
theorem mem_collectAdmitted (p : TxOutput → Bool) (l : List TxOutput) (i k : Nat) :
    k ∈ collectAdmitted p l i ↔
      ∃ m, m < l.length ∧ p (l.getD m emptyOutput) = true ∧ k = m + i := by
  induction l generalizing i k with
  | nil => simp [collectAdmitted]
  | cons o rest ih =>
    rw [collectAdmitted]
    by_cases hp : p o
    · rw [if_pos hp]
      simp only [List.mem_cons, ih (i + 1)]
      constructor
      · rintro (rfl | ⟨m, hm, hpm, rfl⟩)
        · exact ⟨0, by simp, by simpa using hp, by omega⟩
        · exact ⟨m + 1, by simpa using hm, by simpa using hpm, by omega⟩
      · rintro ⟨m, hm, hpm, rfl⟩
        cases m with
        | zero => left; omega
        | succ m' => right; exact ⟨m', by simpa using hm, by simpa using hpm, by omega⟩
    · rw [if_neg hp]
      rw [ih (i + 1)]
      constructor
      · rintro ⟨m, hm, hpm, rfl⟩
        exact ⟨m + 1, by simpa using hm, by simpa using hpm, by omega⟩
      · rintro ⟨m, hm, hpm, rfl⟩
        cases m with
        | zero =>
          simp only [List.getD_cons_zero] at hpm
          exact absurd hpm (by simpa using hp)
        | succ m' => exact ⟨m', by simpa using hm, by simpa using hpm, by omega⟩

/-- The output-scanning loop's result is strictly ascending. -/
theorem collectAdmitted_pairwise (p : TxOutput → Bool) (l : List TxOutput) (i : Nat) :
    List.Pairwise (· < ·) (collectAdmitted p l i) := by
  induction l generalizing i with
  | nil => simp [collectAdmitted]
  | cons o rest ih =>
    rw [collectAdmitted]
    by_cases hp : p o
    · rw [if_pos hp]
      refine List.Pairwise.cons ?_ (ih (i + 1))
      intro k hk
      rw [mem_collectAdmitted] at hk
      obtain ⟨m, _, _, rfl⟩ := hk
      omega
    · rw [if_neg hp]
      exact ih (i + 1)

/-- C10: when the parsed bundle yields no subject transaction — in
particular when it contains no transactions at all — both
`identifyIdentityOutputs` and `identifyServiceOutputs` return the
empty admission result rather than signalling an error. -/
theorem identify_outputs_no_subject_empty_result (jp : JsonParse) (pb : ParsedBeef)
    (h : subjectTransaction pb = none) :
    identifyIdentityOutputs jp pb = ⟨[], []⟩ ∧ identifyServiceOutputs jp pb = ⟨[], []⟩ := by
  constructor <;> simp [identifyIdentityOutputs, identifyServiceOutputs, h]

/-- Witness for C10: the concrete bundle with no transactions yields
the empty admission result from both simulators. -/
theorem identify_outputs_no_subject_empty_result_witness :
    identifyIdentityOutputs (constParse identityJsonValid) ⟨[]⟩ = ⟨[], []⟩ ∧
    identifyServiceOutputs (constParse identityJsonValid) ⟨[]⟩ = ⟨[], []⟩ :=
  identify_outputs_no_subject_empty_result (constParse identityJsonValid) ⟨[]⟩ rfl

/-- C2: on a bundle with more than one transaction, both admission
simulators compute exactly what they compute on the bundle containing
the subject entry alone — the subject transaction is entry 0, the
newest, and the outputs of the ancestor entries never influence the
result. -/
theorem identify_outputs_subject_only (jp : JsonParse) (e : BeefTxEntry)
    (rest : List BeefTxEntry) (_hrest : rest ≠ []) :
    identifyIdentityOutputs jp ⟨e :: rest⟩ = identifyIdentityOutputs jp ⟨[e]⟩ ∧
    identifyServiceOutputs jp ⟨e :: rest⟩ = identifyServiceOutputs jp ⟨[e]⟩ ∧
    subjectTransaction ⟨e :: rest⟩ = e.tx := by
  refine ⟨?_, ?_, rfl⟩ <;>
    simp [identifyIdentityOutputs, identifyServiceOutputs, subjectTransaction]

/-- Witness for C2: on the concrete two-transaction bundle — whose
ancestor carries a token-shaped output that would be admissible were
it examined — the simulators behave as on the subject alone. -/
theorem identify_outputs_subject_only_witness :
    identifyIdentityOutputs (constParse identityJsonValid) beefTwoTxEx =
      identifyIdentityOutputs (constParse identityJsonValid) ⟨[⟨some subjectTxEx⟩]⟩ ∧
    identifyServiceOutputs (constParse identityJsonValid) beefTwoTxEx =
      identifyServiceOutputs (constParse identityJsonValid) ⟨[⟨some subjectTxEx⟩]⟩ ∧
    subjectTransaction beefTwoTxEx = some subjectTxEx :=
  identify_outputs_subject_only (constParse identityJsonValid) ⟨some subjectTxEx⟩
    [⟨some ancestorTxEx⟩] (by simp)

/-- C3: the admission result lists, in strictly ascending index
order, exactly the indices of the subject transaction's outputs whose
locking script is present and parses as the topic's payload type —
the identity topic admitting both identity and identity-revocation
payloads — and the retained-coin set of both simulators is always
empty. -/
theorem identify_outputs_admit_exactly (jp : JsonParse) (pb : ParsedBeef)
    (t : SdkTransaction) (h : subjectTransaction pb = some t) :
    (∀ k, k ∈ (identifyIdentityOutputs jp pb).outputsToAdmit ↔
      k < t.outputs.length ∧ ∃ s, (t.outputs.getD k emptyOutput).lockingScript = some s ∧
        ((parseIdentityOutput jp s).isSome = true ∨ (parseRevocationOutput jp s).isSome = true)) ∧
    List.Pairwise (· < ·) (identifyIdentityOutputs jp pb).outputsToAdmit ∧
    (∀ k, k ∈ (identifyServiceOutputs jp pb).outputsToAdmit ↔
      k < t.outputs.length ∧ ∃ s, (t.outputs.getD k emptyOutput).lockingScript = some s ∧
        (parseServiceOutput jp s).isSome = true) ∧
    List.Pairwise (· < ·) (identifyServiceOutputs jp pb).outputsToAdmit ∧
    (∀ pb' : ParsedBeef, (identifyIdentityOutputs jp pb').coinsToRetain = [] ∧
      (identifyServiceOutputs jp pb').coinsToRetain = []) := by
  have hadmI : ∀ o : TxOutput, identityAdmissible jp o = true ↔
      ∃ s, o.lockingScript = some s ∧
        ((parseIdentityOutput jp s).isSome = true ∨ (parseRevocationOutput jp s).isSome = true) := by
    intro o
    cases ho : o.lockingScript with
    | none => simp [identityAdmissible, ho]
    | some s => simp [identityAdmissible, ho, Bool.or_eq_true]
  have hadmS : ∀ o : TxOutput, serviceAdmissible jp o = true ↔
      ∃ s, o.lockingScript = some s ∧ (parseServiceOutput jp s).isSome = true := by
    intro o
    cases ho : o.lockingScript with
    | none => simp [serviceAdmissible, ho]
    | some s => simp [serviceAdmissible, ho]
  refine ⟨?_, ?_, ?_, ?_, ?_⟩
  · intro k
    rw [identifyIdentityOutputs, h]
    simp only [mem_collectAdmitted]
    constructor
    · rintro ⟨m, hm, hpm, rfl⟩
      exact ⟨by omega, (hadmI _).mp (by simpa using hpm)⟩
    · rintro ⟨hk, hs⟩
      exact ⟨k, hk, (hadmI _).mpr hs, by omega⟩
  · rw [identifyIdentityOutputs, h]
    exact collectAdmitted_pairwise _ _ _
  · intro k
    rw [identifyServiceOutputs, h]
    simp only [mem_collectAdmitted]
    constructor
    · rintro ⟨m, hm, hpm, rfl⟩
      exact ⟨by omega, (hadmS _).mp (by simpa using hpm)⟩
    · rintro ⟨hk, hs⟩
      exact ⟨k, hk, (hadmS _).mpr hs, by omega⟩
  · rw [identifyServiceOutputs, h]
    exact collectAdmitted_pairwise _ _ _
  · intro pb'
    cases h' : subjectTransaction pb' <;>
      simp [identifyIdentityOutputs, identifyServiceOutputs, h']

/-- Witness for C3: on the concrete two-output subject transaction
with a valid identity payload, output 0 (the token output) is
admitted by the identity topic and output 1 (the ordinary change
output) is not. -/
theorem identify_outputs_admit_exactly_witness :
    (0 ∈ (identifyIdentityOutputs (constParse identityJsonValid) beefTwoTxEx).outputsToAdmit) ∧
    ¬ (1 ∈ (identifyIdentityOutputs (constParse identityJsonValid) beefTwoTxEx).outputsToAdmit) := by
  have h := identify_outputs_admit_exactly (constParse identityJsonValid) beefTwoTxEx
    subjectTxEx rfl
  constructor
  · exact (h.1 0).mpr ⟨by decide, modernScriptEx, rfl, Or.inl rfl⟩
  · intro hmem
    obtain ⟨-, s, hs, hparse⟩ := (h.1 1).mp hmem
    have hs' : s = p2pkhScriptEx := by
      simpa [beefTwoTxEx, subjectTxEx] using hs.symm
    subst hs'
    rcases hparse with hI | hI <;>
      simp [parseIdentityOutput, parseRevocationOutput,
        parsePayloadOutput, extractPushDropFields, pushDropDecode, p2pkhScriptEx] at hI

/-- C5 (code bug): the response handling of
`buildRealOverlayTransaction` returns the success record for every
success-status response, whatever admission results the STEAK body
carries — in particular for a body that admits zero outputs for the
submitted topic, which the repository's own submission plan records
as a defect to fix (return success even when the server admits zero
outputs; `outputsToAdmit` is not checked). -/
theorem buildRealOverlayTransaction_success_ignores_admissions :
    (∀ (st : List (String × AdmittanceResult)) (body : String) (status : Nat),
      buildRealOverlayTransactionSubmitStep "mainnet" "txid0" ⟨true, status, body, st⟩ =
        .success "txid0" "stored-beef" "https://whatsonchain.com/tx/txid0") ∧
    buildRealOverlayTransactionSubmitStep "mainnet" "txid0"
        ⟨true, 200, "", [("tm_clawdbot_identity", ⟨[], []⟩)]⟩ =
      .success "txid0" "stored-beef" "https://whatsonchain.com/tx/txid0" :=
  ⟨fun _ _ _ => rfl, rfl⟩

/-- Helper: a successful payload parse implies the variant's
validation rules hold of the returned JSON value. -/
theorem parsePayloadOutput_valid (valid : JsonValue → Bool) (jp : JsonParse)
    (script : Script) (j : JsonValue) (h : parsePayloadOutput valid jp script = some j) :
    valid j = true := by
  unfold parsePayloadOutput at h
  cases hx : extractPushDropFields script with
  | none => rw [hx] at h; exact absurd h (by simp)
  | some fields =>
    rw [hx] at h
    cases fields with
    | nil => simp at h
    | cons f0 frest =>
      dsimp only at h
      cases hj : jp f0 with
      | none => rw [hj] at h; simp at h
      | some j' =>
        rw [hj] at h
        dsimp only at h
        by_cases hv : valid j' = true
        · rw [if_pos hv] at h
          cases h
          exact hv
        · rw [if_neg hv] at h
          simp at h

/-- Helper: an identity payload that passes validation has a
non-empty `name` string. -/
theorem validIdentityJson_name_nonempty (j : JsonValue) (h : validIdentityJson j = true) :
    ∃ s, j.getField "name" = some (.jstr s) ∧ s ≠ "" := by
  simp only [validIdentityJson, Bool.and_eq_true] at h
  obtain ⟨⟨⟨⟨⟨-, -⟩, -⟩, hname⟩, -⟩, -⟩ := h
  cases hget : j.getField "name" with
  | none => rw [hget] at hname; simp at hname
  | some v =>
    rw [hget] at hname
    cases v with
    | jstr s => exact ⟨s, rfl, by simpa using hname⟩
    | jnull => simp at hname
    | jbool b => simp at hname
    | jnum q => simp at hname
    | jarr es => simp at hname
    | jobj fs => simp at hname

/-- Helper: a service payload that passes validation has non-empty
`name` and `serviceId` strings. -/
theorem validServiceJson_nonempty (j : JsonValue) (h : validServiceJson j = true) :
    (∃ s, j.getField "name" = some (.jstr s) ∧ s ≠ "") ∧
    (∃ s, j.getField "serviceId" = some (.jstr s) ∧ s ≠ "") := by
  simp only [validServiceJson, Bool.and_eq_true] at h
  obtain ⟨⟨⟨⟨⟨⟨-, -⟩, -⟩, hsid⟩, hname⟩, -⟩, -⟩ := h
  constructor
  · cases hget : j.getField "name" with
    | none => rw [hget] at hname; simp at hname
    | some v =>
      rw [hget] at hname
      cases v with
      | jstr s => exact ⟨s, rfl, by simpa using hname⟩
      | jnull => simp at hname
      | jbool b => simp at hname
      | jnum q => simp at hname
      | jarr es => simp at hname
      | jobj fs => simp at hname
  · cases hget : j.getField "serviceId" with
    | none => rw [hget] at hsid; simp at hsid
    | some v =>
      rw [hget] at hsid
      cases v with
      | jstr s => exact ⟨s, rfl, by simpa using hsid⟩
      | jnull => simp at hsid
      | jbool b => simp at hsid
      | jnum q => simp at hsid
      | jarr es => simp at hsid
      | jobj fs => simp at hsid

/-- C6 counterexample: both parsers accept a payload whose
`description` field is the empty string — the `description` field is
not validated at all, so the claim that any empty required string
field (including `description`) yields `null` fails at this input. -/
theorem parse_accepts_empty_description :
    parseIdentityOutput (constParse identityJsonEmptyDesc) modernScriptEx =
      some identityJsonEmptyDesc ∧
    parseServiceOutput (constParse serviceJsonEmptyDesc) modernScriptEx =
      some serviceJsonEmptyDesc ∧
    JsonValue.getField identityJsonEmptyDesc "description" = some (.jstr "") ∧
    JsonValue.getField serviceJsonEmptyDesc "description" = some (.jstr "") :=
  ⟨rfl, rfl, rfl, rfl⟩

/-- C6 amended: the parsers return `null` (never throw) whenever the
`name` field (identity, service) or the `serviceId` field (service)
is empty; the `description` field is not validated and an empty
description is accepted. -/
theorem parse_rejects_empty_name_and_serviceId :
    (∀ (jp : JsonParse) (script : Script) (j : JsonValue),
      parseIdentityOutput jp script = some j →
        ∃ s, j.getField "name" = some (.jstr s) ∧ s ≠ "") ∧
    (∀ (jp : JsonParse) (script : Script) (j : JsonValue),
      parseServiceOutput jp script = some j →
        (∃ s, j.getField "name" = some (.jstr s) ∧ s ≠ "") ∧
        (∃ s, j.getField "serviceId" = some (.jstr s) ∧ s ≠ "")) := by
  constructor
  · intro jp script j h
    exact validIdentityJson_name_nonempty j (parsePayloadOutput_valid _ jp script j h)
  · intro jp script j h
    exact validServiceJson_nonempty j (parsePayloadOutput_valid _ jp script j h)

/-- Witness for the amended C6: the concrete accepted payloads indeed
carry non-empty `name` and `serviceId` fields. -/
theorem parse_rejects_empty_name_and_serviceId_witness :
    (∃ s, JsonValue.getField identityJsonValid "name" = some (.jstr s) ∧ s ≠ "") ∧
    (∃ s, JsonValue.getField serviceJsonValid "serviceId" = some (.jstr s) ∧ s ≠ "") :=
  ⟨parse_rejects_empty_name_and_serviceId.1 (constParse identityJsonValid)
      modernScriptEx identityJsonValid rfl,
    (parse_rejects_empty_name_and_serviceId.2 (constParse serviceJsonValid)
      modernScriptEx serviceJsonValid rfl).2⟩

/-- C7: the payload parsers return `null` on each of the malformed
inputs: wrong protocol tag; wrong `type` discriminator; identity key
`not-a-valid-key`; identity key truncated to 6 hexadecimal
characters; empty `name`; `capabilities` given as a string; missing
`pricing`; and `pricing.amountSats` given as a string. -/
theorem payload_validators_reject_malformed :
    parseIdentityOutput (constParse identityJsonWrongProtocol) modernScriptEx = none ∧
    parseIdentityOutput (constParse identityJsonWrongType) modernScriptEx = none ∧
    parseIdentityOutput (constParse identityJsonBadKey) modernScriptEx = none ∧
    parseIdentityOutput (constParse identityJsonShortKey) modernScriptEx = none ∧
    parseIdentityOutput (constParse identityJsonEmptyName) modernScriptEx = none ∧
    parseIdentityOutput (constParse identityJsonCapsString) modernScriptEx = none ∧
    parseServiceOutput (constParse serviceJsonNoPricing) modernScriptEx = none ∧
    parseServiceOutput (constParse serviceJsonAmountString) modernScriptEx = none :=
  ⟨rfl, rfl, rfl, rfl, rfl, rfl, rfl, rfl⟩

/-- C4 counterexample: the decoder the payload validators and
admission simulators use, `extractPushDropFields`, returns `null` on
a well-formed legacy `OP_FALSE OP_RETURN` data-carrier script whose
fields the deprecated legacy decoder extracts — so it is not the case
that every decoder used by them accepts both recognized encodings;
the validators and simulators consequently reject legacy-encoded
payloads. -/
theorem used_decoder_rejects_legacy :
    extractPushDropFields legacyScriptEx = none ∧
    extractOpReturnPushes legacyScriptEx = some [protocolTagBytes, payloadFieldBytes] ∧
    parseIdentityOutput (constParse identityJsonValid) legacyScriptEx = none ∧
    parseIdentityOutput (constParse identityJsonValid) modernScriptEx =
      some identityJsonValid ∧
    identifyIdentityOutputs (constParse identityJsonValid)
        ⟨[⟨some ⟨[⟨some legacyScriptEx, 1⟩]⟩⟩]⟩ = ⟨[], []⟩ :=
  ⟨rfl, rfl, rfl, rfl, rfl⟩

/-- C4 amended: the deprecated legacy decoder `extractOpReturnPushes`
accepts exactly the two legacy data-carrier shapes (returning the
pushed fields, with the protocol tag field preceding the JSON field)
and returns `null` for anything else, without throwing; the decoder
actually used by the payload validators and admission simulators,
`extractPushDropFields`, accepts only the modern PushDrop shape and
returns `null`, without throwing, for any script whose second
operator is not the signature check — in particular for every legacy
data-carrier script. -/
theorem decoders_encoding_support :
    (∀ (d0 d1 : Option (List Nat)) (c2 c3 : ScriptChunk) (rest : List ScriptChunk),
      extractOpReturnPushes (⟨opFalse, d0⟩ :: ⟨opReturn, d1⟩ :: c2 :: c3 :: rest) =
        some ((c2 :: c3 :: rest).filterMap (fun c => c.data))) ∧
    (∀ script : Script,
      extractOpReturnPushes script ≠ none ↔ isLegacyCarrierShape script = true) ∧
    (∀ (c0 c1 : ScriptChunk) (rest : List ScriptChunk), c1.op ≠ opCheckSig →
      extractPushDropFields (c0 :: c1 :: rest) = none) ∧
    extractPushDropFields modernScriptEx = some [payloadFieldBytes] := by
  refine ⟨?_, ?_, ?_, rfl⟩
  · intro d0 d1 c2 c3 rest
    simp [extractOpReturnPushes, opFalse, opReturn]
  · intro script
    match script with
    | c0 :: c1 :: c2 :: c3 :: rest =>
      by_cases hops : c0.op = opFalse ∧ c1.op = opReturn
      · rw [extractOpReturnPushes, if_pos hops]
        simp [isLegacyCarrierShape, hops.1, hops.2]
      · rw [extractOpReturnPushes, if_neg hops]
        simp only [isLegacyCarrierShape, ne_eq, not_true_eq_false, Bool.and_eq_true,
          decide_eq_true_eq]
        tauto
    | [c0, c1] =>
      by_cases hops : c0.op = opFalse ∧ c1.op = opReturn
      · rw [extractOpReturnPushes, if_pos hops]
        cases hdata : c1.data with
        | none => simp [isLegacyCarrierShape, hops.1, hops.2, hdata]
        | some blob =>
          dsimp only
          by_cases hlen : 2 ≤ (parseCollapsedPushes blob).length
          · rw [if_pos hlen]
            simp [isLegacyCarrierShape, hops.1, hops.2, hdata, hlen]
          · rw [if_neg hlen]
            simp [isLegacyCarrierShape, hops.1, hops.2, hdata, hlen]
      · rw [extractOpReturnPushes, if_neg hops]
        simp only [isLegacyCarrierShape, ne_eq, not_true_eq_false, Bool.and_eq_true,
          decide_eq_true_eq]
        tauto
    | [] => simp [extractOpReturnPushes, isLegacyCarrierShape]
    | [c0] => simp [extractOpReturnPushes, isLegacyCarrierShape]
    | [c0, c1, c2] => simp [extractOpReturnPushes, isLegacyCarrierShape]
  · intro c0 c1 rest hsig
    cases hd : c0.data with
    | none => simp [extractPushDropFields, pushDropDecode, hd]
    | some keyBytes => simp [extractPushDropFields, pushDropDecode, hd, hsig]

/-- Witness for the amended C4: the legacy example script's fields
are extracted by the legacy decoder, and the used decoder returns
`null` on a two-chunk script led by `OP_FALSE OP_RETURN`. -/
theorem decoders_encoding_support_witness :
    extractOpReturnPushes
        (⟨opFalse, none⟩ :: ⟨opReturn, none⟩ :: ⟨19, some protocolTagBytes⟩ ::
          ⟨2, some payloadFieldBytes⟩ :: []) =
      some [protocolTagBytes, payloadFieldBytes] ∧
    extractPushDropFields (⟨opFalse, none⟩ :: ⟨opReturn, some protocolTagBytes⟩ :: []) =
      none := by
  constructor
  · have h := decoders_encoding_support.1 none none ⟨19, some protocolTagBytes⟩
      ⟨2, some payloadFieldBytes⟩ []
    simpa using h
  · exact decoders_encoding_support.2.2.1 ⟨opFalse, none⟩ ⟨opReturn, some protocolTagBytes⟩ []
      (by decide)

set_option maxRecDepth 8192 in
/-- Every byte renders as exactly two hexadecimal characters. -/
theorem byteHexChars_length2 : ∀ b < 256, (byteHexChars b).length = 2 := by decide

set_option maxRecDepth 8192 in
/-- Hex rendering separates every byte from each of the five byte
values occurring in the two magic markers. -/
theorem byteHexChars_inj_magic : ∀ b < 256,
    (byteHexChars b = byteHexChars 1 → b = 1) ∧
    (byteHexChars b = byteHexChars 0 → b = 0) ∧
    (byteHexChars b = byteHexChars 190 → b = 190) ∧
    (byteHexChars b = byteHexChars 239 → b = 239) ∧
    (byteHexChars b = byteHexChars 2 → b = 2) := by decide

/-- The joined hex string of a four-byte-or-longer buffer is the
concatenation of its first four bytes' renderings. -/
theorem magicHexChars_cons (a b c d : Nat) (r : List Nat) :
    magicHexChars (a :: b :: c :: d :: r) =
      byteHexChars a ++ (byteHexChars b ++ (byteHexChars c ++ (byteHexChars d ++ []))) := rfl

/-- Concatenations of four two-character renderings agree only
componentwise. -/
theorem hexQuad_inj (a b c d p q u v : Nat)
    (ha : a < 256) (hb : b < 256) (hc : c < 256) (_hd : d < 256)
    (hp : p < 256) (hq : q < 256) (hu : u < 256) (_hv : v < 256)
    (h : byteHexChars a ++ (byteHexChars b ++ (byteHexChars c ++ (byteHexChars d ++ ([] : List Char)))) =
      byteHexChars p ++ (byteHexChars q ++ (byteHexChars u ++ (byteHexChars v ++ [])))) :
    byteHexChars a = byteHexChars p ∧ byteHexChars b = byteHexChars q ∧
    byteHexChars c = byteHexChars u ∧ byteHexChars d = byteHexChars v := by
  obtain ⟨e1, h2⟩ := List.append_inj h
    (by rw [byteHexChars_length2 a ha, byteHexChars_length2 p hp])
  obtain ⟨e2, h3⟩ := List.append_inj h2
    (by rw [byteHexChars_length2 b hb, byteHexChars_length2 q hq])
  obtain ⟨e3, h4⟩ := List.append_inj h3
    (by rw [byteHexChars_length2 c hc, byteHexChars_length2 u hu])
  exact ⟨e1, e2, e3, by simpa using h4⟩

/-- The magic string computed by `validateBeef` equals one of the two
recognized magic strings exactly when the first four bytes are the
corresponding magic bytes. -/
theorem magic_string_eq_iff (a b c d : Nat) (r : List Nat)
    (ha : a < 256) (hb : b < 256) (hc : c < 256) (hd : d < 256) :
    (String.mk (magicHexChars (a :: b :: c :: d :: r)) = "0100beef" ↔
      (a = 1 ∧ b = 0 ∧ c = 190 ∧ d = 239)) ∧
    (String.mk (magicHexChars (a :: b :: c :: d :: r)) = "0200beef" ↔
      (a = 2 ∧ b = 0 ∧ c = 190 ∧ d = 239)) := by
  have h1 : "0100beef" =
      String.mk (byteHexChars 1 ++ (byteHexChars 0 ++ (byteHexChars 190 ++ (byteHexChars 239 ++ [])))) := by
    decide
  have h2 : "0200beef" =
      String.mk (byteHexChars 2 ++ (byteHexChars 0 ++ (byteHexChars 190 ++ (byteHexChars 239 ++ [])))) := by
    decide
  constructor
  · constructor
    · intro h
      rw [h1] at h
      have h' := congrArg String.data h
      rw [magicHexChars_cons] at h'
      obtain ⟨e1, e2, e3, e4⟩ := hexQuad_inj a b c d 1 0 190 239 ha hb hc hd
        (by omega) (by omega) (by omega) (by omega) h'
      exact ⟨(byteHexChars_inj_magic a ha).1 e1, (byteHexChars_inj_magic b hb).2.1 e2,
        (byteHexChars_inj_magic c hc).2.2.1 e3, (byteHexChars_inj_magic d hd).2.2.2.1 e4⟩
    · rintro ⟨rfl, rfl, rfl, rfl⟩
      rw [h1]
      rfl
  · constructor
    · intro h
      rw [h2] at h
      have h' := congrArg String.data h
      rw [magicHexChars_cons] at h'
      obtain ⟨e1, e2, e3, e4⟩ := hexQuad_inj a b c d 2 0 190 239 ha hb hc hd
        (by omega) (by omega) (by omega) (by omega) h'
      exact ⟨(byteHexChars_inj_magic a ha).2.2.2.2 e1, (byteHexChars_inj_magic b hb).2.1 e2,
        (byteHexChars_inj_magic c hc).2.2.1 e3, (byteHexChars_inj_magic d hd).2.2.2.1 e4⟩
    · rintro ⟨rfl, rfl, rfl, rfl⟩
      rw [h2]
      rfl

/-- Evaluation of `validateBeef` on a too-short buffer. -/
theorem validateBeef_short (beef : List Nat) (hlen : beef.length < 4) :
    validateBeef beef = ⟨false, some "BEEF too short", none, none, none⟩ := by
  unfold validateBeef
  rw [if_pos hlen]

/-- Evaluation of `validateBeef` on a long-enough buffer with an
unrecognized magic string. -/
theorem validateBeef_badMagic (beef : List Nat) (hlen : ¬ beef.length < 4)
    (h1 : String.mk (magicHexChars beef) ≠ "0100beef")
    (h2 : String.mk (magicHexChars beef) ≠ "0200beef") :
    validateBeef beef =
      ⟨false, some ("Invalid magic bytes: " ++ String.mk (magicHexChars beef)),
        none, none, none⟩ := by
  unfold validateBeef
  rw [if_neg hlen]
  dsimp only
  rw [if_pos ⟨h1, h2⟩]

/-- Evaluation of `validateBeef` past the magic guards, version 1. -/
theorem validateBeef_magicV1 (beef : List Nat) (hlen : ¬ beef.length < 4)
    (hm : String.mk (magicHexChars beef) = "0100beef") :
    validateBeef beef =
      (match beefFromBinary beef with
        | .error e => ⟨false, some e, none, none, none⟩
        | .ok parsed =>
          if parsed.txRecords.length = 0 then
            ⟨false, some "BEEF contains no transactions", none, none, none⟩
          else
            ⟨true, none, some 1, some parsed.txRecords.length,
              some (decide (0 < parsed.bumps.length))⟩) := by
  unfold validateBeef
  rw [if_neg hlen]
  dsimp only
  rw [if_neg (by simp [hm]), if_pos hm]

/-- Evaluation of `validateBeef` past the magic guards, version 2. -/
theorem validateBeef_magicV2 (beef : List Nat) (hlen : ¬ beef.length < 4)
    (hm : String.mk (magicHexChars beef) = "0200beef") :
    validateBeef beef =
      (match beefFromBinary beef with
        | .error e => ⟨false, some e, none, none, none⟩
        | .ok parsed =>
          if parsed.txRecords.length = 0 then
            ⟨false, some "BEEF contains no transactions", none, none, none⟩
          else
            ⟨true, none, some 2, some parsed.txRecords.length,
              some (decide (0 < parsed.bumps.length))⟩) := by
  unfold validateBeef
  rw [if_neg hlen]
  dsimp only
  rw [if_neg (by simp [hm]), if_neg (by rw [hm]; decide)]

/-- C8: for every byte buffer that is 4 bytes or shorter, or whose
first four bytes are neither `0x0100BEEF` nor `0x0200BEEF`,
`validateBeef` returns a structured failure value carrying an error
message (it is a total function, so no exception escapes); and a
version is only ever reported for exactly those two magic values. -/
theorem validateBeef_rejects_bad_input (beef : List Nat) (hbytes : ∀ b ∈ beef, b < 256) :
    ((beef.length ≤ 4 ∨ (beef.take 4 ≠ beefMagicV1 ∧ beef.take 4 ≠ beefMagicV2)) →
      (validateBeef beef).valid = false ∧ (validateBeef beef).error.isSome = true) ∧
    (∀ v, (validateBeef beef).version = some v →
      (v = 1 ∧ beef.take 4 = beefMagicV1) ∨ (v = 2 ∧ beef.take 4 = beefMagicV2)) := by
  rcases hshape : beef with _ | ⟨a, _ | ⟨b, _ | ⟨c, _ | ⟨d, r⟩⟩⟩⟩
  · rw [validateBeef_short [] (by simp)]
    exact ⟨fun _ => ⟨rfl, rfl⟩, by simp⟩
  · rw [validateBeef_short [a] (by simp)]
    exact ⟨fun _ => ⟨rfl, rfl⟩, by simp⟩
  · rw [validateBeef_short [a, b] (by simp)]
    exact ⟨fun _ => ⟨rfl, rfl⟩, by simp⟩
  · rw [validateBeef_short [a, b, c] (by simp)]
    exact ⟨fun _ => ⟨rfl, rfl⟩, by simp⟩
  · subst hshape
    have ha : a < 256 := hbytes a (by simp)
    have hb : b < 256 := hbytes b (by simp)
    have hc : c < 256 := hbytes c (by simp)
    have hd : d < 256 := hbytes d (by simp)
    have hlen : ¬ (a :: b :: c :: d :: r).length < 4 := by simp
    have hmi := magic_string_eq_iff a b c d r ha hb hc hd
    have htake : (a :: b :: c :: d :: r).take 4 = [a, b, c, d] := rfl
    by_cases hm1 : String.mk (magicHexChars (a :: b :: c :: d :: r)) = "0100beef"
    · obtain ⟨rfl, rfl, rfl, rfl⟩ := hmi.1.mp hm1
      constructor
      · rintro (hshort | ⟨hne1, -⟩)
        · have hr : r = [] := by
            simp only [List.length_cons] at hshort
            exact List.eq_nil_of_length_eq_zero (by omega)
          subst hr
          exact ⟨by decide, by decide⟩
        · exact absurd htake hne1
      · intro v hv
        rw [validateBeef_magicV1 _ hlen hm1] at hv
        cases hfb : beefFromBinary (1 :: 0 :: 190 :: 239 :: r) with
        | error e => rw [hfb] at hv; simp at hv
        | ok parsed =>
          rw [hfb] at hv
          dsimp only at hv
          by_cases hz : parsed.txRecords.length = 0
          · rw [if_pos hz] at hv; simp at hv
          · rw [if_neg hz] at hv
            simp only [Option.some.injEq] at hv
            exact Or.inl ⟨hv.symm, htake⟩
    · by_cases hm2 : String.mk (magicHexChars (a :: b :: c :: d :: r)) = "0200beef"
      · obtain ⟨rfl, rfl, rfl, rfl⟩ := hmi.2.mp hm2
        constructor
        · rintro (hshort | ⟨-, hne2⟩)
          · have hr : r = [] := by
              simp only [List.length_cons] at hshort
              exact List.eq_nil_of_length_eq_zero (by omega)
            subst hr
            exact ⟨by decide, by decide⟩
          · exact absurd htake hne2
        · intro v hv
          rw [validateBeef_magicV2 _ hlen hm2] at hv
          cases hfb : beefFromBinary (2 :: 0 :: 190 :: 239 :: r) with
          | error e => rw [hfb] at hv; simp at hv
          | ok parsed =>
            rw [hfb] at hv
            dsimp only at hv
            by_cases hz : parsed.txRecords.length = 0
            · rw [if_pos hz] at hv; simp at hv
            · rw [if_neg hz] at hv
              simp only [Option.some.injEq] at hv
              exact Or.inr ⟨hv.symm, htake⟩
      · rw [validateBeef_badMagic _ hlen hm1 hm2]
        exact ⟨fun _ => ⟨rfl, rfl⟩, by simp⟩

/-- Witness for C8: the shortest buffer carrying a valid version-1
magic — exactly 4 bytes — is still rejected with a structured error. -/
theorem validateBeef_rejects_bad_input_witness :
    (validateBeef [1, 0, 190, 239]).valid = false ∧
    (validateBeef [1, 0, 190, 239]).error.isSome = true :=
  (validateBeef_rejects_bad_input [1, 0, 190, 239] (by decide)).1 (Or.inl (by decide))

/-- The backoff delay is never negative. -/
theorem backoffDelay_nonneg (a : Nat) : 0 ≤ backoffDelay a :=
  le_min (by positivity) (by norm_num)

/-- Every slept delay (the attempt counter is at least 1 when a delay
is computed) is at least 1500 milliseconds. -/
theorem backoffDelay_ge_1500 (a : Nat) : 1500 ≤ backoffDelay (a + 1) := by
  unfold backoffDelay
  rw [le_min_iff]
  refine ⟨?_, by norm_num⟩
  have h1 : (1 : ℚ) ≤ (3 / 2 : ℚ) ^ a := one_le_pow₀ (by norm_num)
  have h2 : (3 / 2 : ℚ) ^ (a + 1) = (3 / 2 : ℚ) ^ a * (3 / 2) := pow_succ _ _
  nlinarith

/-- The accumulated backoff is monotone in the retry count. -/
theorem totalBackoff_mono : Monotone totalBackoff :=
  monotone_nat_of_le_succ (fun n => le_add_of_nonneg_right (backoffDelay_nonneg (n + 1)))

/-- Running the loop through a block of consecutive 404 responses
advances the clock by exactly the scheduled backoff delays and the
attempt counter by the block length. -/
theorem importPollLoop_notFound_run (k : Nat) (tail : List WocResponse) :
    ∀ i : Nat, totalBackoff (i + k) < maxWaitMs →
    importPollLoop (List.replicate k .notFound ++ tail) (totalBackoff i) i =
      importPollLoop tail (totalBackoff (i + k)) (i + k) := by
  induction k with
  | zero => intro i _; simp
  | succ k ih =>
    intro i h
    rw [List.replicate_succ, List.cons_append, importPollLoop]
    rw [if_neg (not_le.mpr (lt_of_le_of_lt (totalBackoff_mono (by omega)) h))]
    have e : totalBackoff i + backoffDelay (i + 1) = totalBackoff (i + 1) := rfl
    have hidx : i + 1 + k = i + (k + 1) := by omega
    rw [e, ih (i + 1) (by rw [hidx]; exact h), hidx]

/-- Exhausting the budget against persistent 404 responses: once the
pending sleeps (at least 1500 ms each) cover the remaining budget,
the loop ends in a timeout whose elapsed clock meets the budget. -/
theorem importPollLoop_timeout_aux : ∀ (m : Nat) (e : ℚ) (a : Nat),
    maxWaitMs ≤ e + 1500 * m →
    ∃ e', importPollLoop (List.replicate m .notFound) e a = .timedOut e' ∧ maxWaitMs ≤ e' := by
  intro m
  induction m with
  | zero =>
    intro e a h
    refine ⟨e, ?_, by simpa using h⟩
    rw [importPollLoop.eq_def, if_pos (by simpa using h)]
  | succ m ih =>
    intro e a h
    by_cases he : maxWaitMs ≤ e
    · exact ⟨e, by rw [importPollLoop.eq_def, if_pos he], he⟩
    · rw [List.replicate_succ, importPollLoop, if_neg he]
      apply ih (e + backoffDelay (a + 1)) (a + 1)
      have hb := backoffDelay_ge_1500 a
      push_cast at h ⊢
      linarith

/-- C9: the polling loop of `cmdImport` (i) retries a 404 response,
when the 60-second budget is not yet exhausted, after sleeping
exactly `min(1000 * 1.5 ^ attempt, 10000)` milliseconds with the
incremented attempt counter; (ii) a found response exits successfully
having waited exactly the scheduled backoff delays; (iii) any other
non-success response fails immediately, with no retry; (iv) persistent
404 responses exhaust the budget and end in a timeout whose elapsed
clock is at least the 60-second budget. -/
theorem cmdImport_poll_spec :
    (∀ (rest : List WocResponse) (e : ℚ) (a : Nat), e < maxWaitMs →
      importPollLoop (.notFound :: rest) e a =
        importPollLoop rest (e + min (1000 * (3 / 2 : ℚ) ^ (a + 1)) 10000) (a + 1)) ∧
    (∀ (k : Nat) (rest : List WocResponse), totalBackoff k < maxWaitMs →
      importPollLoop (List.replicate k .notFound ++ .ok :: rest) 0 0 =
        .found (totalBackoff k) k) ∧
    (∀ (k s : Nat) (rest : List WocResponse), totalBackoff k < maxWaitMs →
      importPollLoop (List.replicate k .notFound ++ .httpError s :: rest) 0 0 =
        .fetchFailed s) ∧
    (∀ resps : List WocResponse, (∀ x ∈ resps, x = WocResponse.notFound) →
      40 ≤ resps.length →
      ∃ e, importPollLoop resps 0 0 = .timedOut e ∧ maxWaitMs ≤ e) := by
  have h0 : totalBackoff 0 = 0 := rfl
  refine ⟨?_, ?_, ?_, ?_⟩
  · intro rest e a h
    rw [importPollLoop, if_neg (not_le.mpr h)]
    rfl
  · intro k rest h
    rw [← h0, importPollLoop_notFound_run k (.ok :: rest) 0 (by simpa using h)]
    simp only [Nat.zero_add]
    rw [importPollLoop, if_neg (not_le.mpr h)]
  · intro k s rest h
    rw [← h0, importPollLoop_notFound_run k (.httpError s :: rest) 0 (by simpa using h)]
    simp only [Nat.zero_add]
    rw [importPollLoop, if_neg (not_le.mpr h)]
  · intro resps hall hlen
    rw [List.eq_replicate_of_mem hall]
    apply importPollLoop_timeout_aux resps.length 0 0
    have hc : (40 : ℚ) ≤ (resps.length : ℚ) := by exact_mod_cast hlen
    rw [maxWaitMs]
    linarith

/-- The spec's scenario-D schedule: three 404 responses cost
1500 + 2250 + 3375 milliseconds of backoff, within the budget. -/
theorem totalBackoff_three : totalBackoff 3 = 7125 ∧ totalBackoff 3 < maxWaitMs := by
  constructor <;>
    norm_num [totalBackoff, backoffDelay, maxWaitMs, min_def]

/-- Witness for C9: three 404 responses followed by a success yield a
found result after exactly the scheduled waits; an error status fails
immediately; forty 404 responses exhaust the budget. -/
theorem cmdImport_poll_spec_witness :
    totalBackoff 3 < maxWaitMs ∧
    importPollLoop (List.replicate 3 .notFound ++ [.ok]) 0 0 = .found (totalBackoff 3) 3 ∧
    importPollLoop [.httpError 500] 0 0 = .fetchFailed 500 ∧
    ∃ e, importPollLoop (List.replicate 40 .notFound) 0 0 = .timedOut e ∧ maxWaitMs ≤ e := by
  refine ⟨totalBackoff_three.2, cmdImport_poll_spec.2.1 3 [] totalBackoff_three.2, ?_, ?_⟩
  · have h := cmdImport_poll_spec.2.2.1 0 500 [] (by norm_num [totalBackoff, maxWaitMs])
    simpa using h
  · exact cmdImport_poll_spec.2.2.2 (List.replicate 40 .notFound)
      (fun x hx => List.eq_of_mem_replicate hx) (by simp)

end Openclaw
